import Mathlib

/-!
Verification of the Team-Hub collaboration backend: a shallow embedding of
the authorization / team-membership core (project controller, team
controller, auth controller) together with theorems about the spec-level
properties of that core.

Conventions of the embedding:
* Timestamps are abstract `Nat` ticks (hours); the 24-hour verification
  window becomes `now + 24`.
* The JWT layer is modelled by `Auth`: a request either carries no
  `Authorization: Bearer` header, carries a token that fails
  `jwt.verify`, or carries a valid token whose decoded `user` payload is a
  `Claims` record.  Handlers branch on these three cases exactly as the
  JS code does.
* Randomness (fresh UUIDs, invite codes, verification tokens) and the
  bcrypt hash are passed in as explicit parameters.
* The external e-mail sender (`nodemailer`) can fail; `await
  sendVerificationEmail` rejecting is modelled by the Boolean input
  `emailSendOk` (the e-mail service is an external interface).
* The Supabase store is a record of table rows; `maybeSingle` becomes
  `List.find?`; an insert appends; a row update maps over the table.
-/

namespace TeamHub

/-- Decoded JWT payload `decodedToken.user` as issued by `login`:
`{ id, email, role, teamId }`. -/
structure Claims where
  id : String
  email : String
  role : String
  teamId : Option String
deriving Repr, DecidableEq

/-- Outcome of the bearer-token check every handler performs first:
either the `Authorization` header is missing / not `Bearer `-prefixed,
or `jwt.verify` throws, or verification succeeds with decoded claims. -/
inductive Auth where
  | noHeader : Auth
  | badToken : Auth
  | ok : Claims → Auth
deriving Repr, DecidableEq

/-- HTTP-level result of a handler: a success status or a failure status
with the response message. -/
inductive Resp where
  | ok : Nat → Resp
  | fail : Nat → String → Resp
deriving Repr, DecidableEq

/-- True exactly on failure responses. -/
def Resp.isFail : Resp → Bool
  | .ok _ => false
  | .fail _ _ => true

/-- JS truthiness of an optional string: `undefined` and the empty string
are falsy. -/
def truthy : Option String → Bool
  | none => false
  | some s => !(s == "")

/-- Row of the Supabase `users` table (fields the controllers read). -/
structure SUser where
  id : String
  role : String
  teamId : Option String
deriving Repr, DecidableEq

/-- Row of the Supabase `projects` table. -/
structure SProject where
  id : String
  name : String
  description : String
  status : String
  teamId : String
  createdBy : String
  createdAt : Nat
  updatedAt : Nat
deriving Repr, DecidableEq

/-- Row of the Supabase `project_members` table. -/
structure SMember where
  projectId : String
  userId : String
  role : String
deriving Repr, DecidableEq

/-- Row of the Supabase `team_invitations` table (fields read by
`cancelInvitation`). -/
structure SInvitation where
  id : String
  teamId : Option String
  email : String
  status : String
deriving Repr, DecidableEq

/-- The Supabase store used by the project and team controllers. -/
structure SupaState where
  users : List SUser
  projects : List SProject
  members : List SMember
  invitations : List SInvitation
deriving Repr, DecidableEq

/-- Lookup `supabase.from(users).select(...).eq(id, uid).maybeSingle()`. -/
def findUser (st : SupaState) (uid : String) : Option SUser :=
  st.users.find? (fun u => u.id == uid)

/-- Lookup `supabase.from(projects).select(...).eq(id, pid).maybeSingle()`. -/
def findProject (st : SupaState) (pid : String) : Option SProject :=
  st.projects.find? (fun p => p.id == pid)

/-- Lookup of one project_members row by project id and user id. -/
def findMember (st : SupaState) (pid uid : String) : Option SMember :=
  st.members.find? (fun m => m.projectId == pid && m.userId == uid)

/-- Lookup `supabase.from(team_invitations)...eq(id, iid).maybeSingle()`. -/
def findInvitation (st : SupaState) (iid : String) : Option SInvitation :=
  st.invitations.find? (fun i => i.id == iid)

/-- Embedding of `getProjectById` (projectController): verify token, load
project (404 if absent), load current user, deny unless the user belongs
to the project team, else return the project. -/
def getProjectById (a : Auth) (projectId : String) (st : SupaState) :
    Resp × SupaState :=
  match a with
  | .noHeader => (.fail 401 "Authorization token required", st)
  | .badToken => (.fail 401 "Invalid or expired token", st)
  | .ok c =>
    match findProject st projectId with
    | none => (.fail 404 "Project not found", st)
    | some project =>
      match findUser st c.id with
      | none =>
        (.fail 403 "Access denied: You do not have access to this project", st)
      | some currentUser =>
        if currentUser.teamId = some project.teamId then (.ok 200, st)
        else
          (.fail 403 "Access denied: You do not have access to this project", st)

/-- The `updateData` object built by `updateProject`: `name` and `status`
are written only when truthy, `description` whenever it is not
`undefined`, and `updated_at` is always set to the current time. -/
def applyUpdate (name description status : Option String) (now : Nat)
    (p : SProject) : SProject :=
  { p with
    name := if truthy name then name.getD p.name else p.name
    description := match description with
      | some d => d
      | none => p.description
    status := if truthy status then status.getD p.status else p.status
    updatedAt := now }

/-- Embedding of `updateProject` (projectController, part_003 lines
269-369): body check, token check, project 404, user 404, team-scope
check, role check (admin or project creator), then the row update. -/
def updateProject (a : Auth) (projectId : String)
    (name description status : Option String) (now : Nat) (st : SupaState) :
    Resp × SupaState :=
  if truthy name = false ∧ truthy description = false ∧ truthy status = false
  then (.fail 400 "At least one field to update is required", st)
  else
    match a with
    | .noHeader => (.fail 401 "Authorization token required", st)
    | .badToken => (.fail 401 "Invalid or expired token", st)
    | .ok c =>
      match findProject st projectId with
      | none => (.fail 404 "Project not found", st)
      | some project =>
        match findUser st c.id with
        | none => (.fail 404 "User not found", st)
        | some currentUser =>
          if currentUser.teamId = some project.teamId then
            if currentUser.role = "admin" ∨ project.createdBy = c.id then
              (.ok 200,
                { st with
                  projects := st.projects.map (fun q =>
                    if q.id == projectId then
                      applyUpdate name description status now q
                    else q) })
            else
              (.fail 403
                "Access denied: You do not have permission to update this project",
                st)
          else
            (.fail 403 "Access denied: You do not have access to this project",
              st)

/-- Embedding of `deleteProject` (part_003 lines 372-441): token check,
project 404, user 404, team-scope check, role check, then the row delete
(the `project_members` rows go with it via the schema ON DELETE
CASCADE). -/
def deleteProject (a : Auth) (projectId : String) (st : SupaState) :
    Resp × SupaState :=
  match a with
  | .noHeader => (.fail 401 "Authorization token required", st)
  | .badToken => (.fail 401 "Invalid or expired token", st)
  | .ok c =>
    match findProject st projectId with
    | none => (.fail 404 "Project not found", st)
    | some project =>
      match findUser st c.id with
      | none => (.fail 404 "User not found", st)
      | some currentUser =>
        if currentUser.teamId = some project.teamId then
          if currentUser.role = "admin" ∨ project.createdBy = c.id then
            (.ok 200,
              { st with
                projects := st.projects.filter (fun q => !(q.id == projectId))
                members := st.members.filter (fun m =>
                  !(m.projectId == projectId)) })
          else
            (.fail 403
              "Access denied: You do not have permission to delete this project",
              st)
        else
          (.fail 403 "Access denied: You do not have access to this project",
            st)

/-- Embedding of `addProjectMember` (part_003 lines 444-563): body check,
token check, project 404, current-user 404, team-scope check, role check,
target-user 404, cross-team check, duplicate check, then the
`project_members` insert with the requested role. -/
def addProjectMember (a : Auth) (projectId : String) (userId : String)
    (role : String) (st : SupaState) : Resp × SupaState :=
  if userId = "" then (.fail 400 "User ID is required", st)
  else
    match a with
    | .noHeader => (.fail 401 "Authorization token required", st)
    | .badToken => (.fail 401 "Invalid or expired token", st)
    | .ok c =>
      match findProject st projectId with
      | none => (.fail 404 "Project not found", st)
      | some project =>
        match findUser st c.id with
        | none => (.fail 404 "User not found", st)
        | some currentUser =>
          if currentUser.teamId = some project.teamId then
            if currentUser.role = "admin" ∨ project.createdBy = c.id then
              match findUser st userId with
              | none => (.fail 404 "User to add not found", st)
              | some userToAdd =>
                if userToAdd.teamId = some project.teamId then
                  match findMember st projectId userId with
                  | some _ =>
                    (.fail 400 "User is already a member of this project", st)
                  | none =>
                    (.ok 201,
                      { st with
                        members := st.members ++ [⟨projectId, userId, role⟩] })
                else (.fail 400 "Cannot add a user from a different team", st)
            else
              (.fail 403
                "Access denied: Only admins can add members to projects", st)
          else
            (.fail 403 "Access denied: You do not have access to this project",
              st)

/-- Embedding of `removeProjectMember` (part_003 lines 566-654): token
check, project 404, current-user 404, team-scope check, role check, the
creator guard (`userId === project.created_by` is rejected), membership
404, then the `project_members` delete. -/
def removeProjectMember (a : Auth) (projectId : String) (userId : String)
    (st : SupaState) : Resp × SupaState :=
  match a with
  | .noHeader => (.fail 401 "Authorization token required", st)
  | .badToken => (.fail 401 "Invalid or expired token", st)
  | .ok c =>
    match findProject st projectId with
    | none => (.fail 404 "Project not found", st)
    | some project =>
      match findUser st c.id with
      | none => (.fail 404 "User not found", st)
      | some currentUser =>
        if currentUser.teamId = some project.teamId then
          if currentUser.role = "admin" ∨ project.createdBy = c.id then
            if userId = project.createdBy then
              (.fail 400 "Cannot remove the project creator from the project",
                st)
            else
              match findMember st projectId userId with
              | none => (.fail 404 "User is not a member of this project", st)
              | some _ =>
                (.ok 200,
                  { st with
                    members := st.members.filter (fun m =>
                      !(m.projectId == projectId && m.userId == userId)) })
          else
            (.fail 403
              "Access denied: Only admins can remove members from projects",
              st)
        else
          (.fail 403 "Access denied: You do not have access to this project",
            st)

/-- Embedding of `cancelInvitation` (teamController, authController.js
lines 604-679): token check, current-user 404, admin-only check,
invitation 404, team-scope check, then the invitation delete. -/
def cancelInvitation (a : Auth) (invitationId : String) (st : SupaState) :
    Resp × SupaState :=
  match a with
  | .noHeader => (.fail 401 "Authorization token required", st)
  | .badToken => (.fail 401 "Invalid or expired token", st)
  | .ok c =>
    match findUser st c.id with
    | none => (.fail 404 "User not found", st)
    | some currentUser =>
      if currentUser.role = "admin" then
        match findInvitation st invitationId with
        | none => (.fail 404 "Invitation not found", st)
        | some invitation =>
          if invitation.teamId = currentUser.teamId then
            (.ok 200,
              { st with
                invitations := st.invitations.filter (fun i =>
                  !(i.id == invitationId)) })
          else
            (.fail 403
              "Access denied: This invitation does not belong to your team",
              st)
      else (.fail 403 "Only team admins can cancel invitations", st)

/-- Whitespace strip at both ends of a string, written at the char-list
level so the kernel can evaluate it (JS `String.prototype.trim`). -/
def trimS (s : String) : String :=
  ⟨((s.data.dropWhile Char.isWhitespace).reverse.dropWhile
    Char.isWhitespace).reverse⟩

/-- JS truthiness of the project-name body field after trimming:
a missing, empty or all-whitespace name fails the request. -/
def truthyTrim : Option String → Bool
  | none => false
  | some s => !(s == "") && !(trimS s == "")

/-- Embedding of `createProject` in the part_003 variant (lines 84-161):
name check, token check, then the project insert using the id and teamId
carried IN THE TOKEN CLAIMS (no store lookup of the actor), followed by
an unconditionally-unchecked `project_members` insert of the creator as
owner.  `freshId` is the store-generated project UUID.  A token whose
`teamId` claim is null makes the insert violate the NOT NULL column and
the reported store error becomes a 500.  The Boolean `memberInsertOk` is
the outcome the store reports for the second insert: the JS code never
reads that error, so the handler answers 201 either way. -/
def createProject (a : Auth) (name description : Option String)
    (freshId : String) (now : Nat) (memberInsertOk : Bool) (st : SupaState) :
    Resp × SupaState :=
  if truthyTrim name = false then (.fail 400 "Project name is required", st)
  else
    match a with
    | .noHeader => (.fail 401 "Authorization token required", st)
    | .badToken => (.fail 401 "Invalid or expired token", st)
    | .ok c =>
      match c.teamId with
      | none => (.fail 500 "Error creating project", st)
      | some teamId =>
        let project : SProject :=
          ⟨freshId, name.getD "", description.getD "", "active", teamId,
            c.id, now, now⟩
        let st1 := { st with projects := st.projects ++ [project] }
        let st2 :=
          if memberInsertOk then
            { st1 with members := st1.members ++ [⟨freshId, c.id, "owner"⟩] }
          else st1
        (.ok 201, st2)

/-- Embedding of `createProject` in the src/controllers/projectController.js
variant (lines 85-153): same checks and project insert as the part_003
variant, but NO `project_members` insert at all — the handler answers 201
straight after the project row is written. -/
def createProjectCtrl (a : Auth) (name description : Option String)
    (freshId : String) (now : Nat) (st : SupaState) : Resp × SupaState :=
  if truthyTrim name = false then (.fail 400 "Project name is required", st)
  else
    match a with
    | .noHeader => (.fail 401 "Authorization token required", st)
    | .badToken => (.fail 401 "Invalid or expired token", st)
    | .ok c =>
      match c.teamId with
      | none => (.fail 500 "Error creating project", st)
      | some teamId =>
        let project : SProject :=
          ⟨freshId, name.getD "", description.getD "", "active", teamId,
            c.id, now, now⟩
        (.ok 201, { st with projects := st.projects ++ [project] })

/-- Document of the Mongo `User` model (fields the auth controller
reads/writes). -/
structure MUser where
  uid : String
  email : String
  username : String
  password : String
  role : String
  teamId : Option String
  emailVerified : Bool
  verificationToken : Option String
  verificationTokenExpiry : Option Nat
deriving Repr, DecidableEq

/-- Document of the Mongo `Team` model. -/
structure MTeam where
  teamId : String
  adminId : String
  editors : List String
  inviteCode : Option String
deriving Repr, DecidableEq

/-- The Mongo store used by the auth controller. -/
structure MongoState where
  users : List MUser
  teams : List MTeam
deriving Repr, DecidableEq

/-- `User.findOne({ email })`. -/
def findByEmail (st : MongoState) (email : String) : Option MUser :=
  st.users.find? (fun u => u.email == email)

/-- `User.findOne({ username })`. -/
def findByUsername (st : MongoState) (username : String) : Option MUser :=
  st.users.find? (fun u => u.username == username)

/-- `User.findOne({ uid })`. -/
def findByUid (st : MongoState) (uid : String) : Option MUser :=
  st.users.find? (fun u => u.uid == uid)

/-- `Team.findOne({ inviteCode })`. -/
def findTeamByCode (st : MongoState) (code : String) : Option MTeam :=
  st.teams.find? (fun t => t.inviteCode == some code)

/-- `Team.findOne({ teamId })`. -/
def findTeamById (st : MongoState) (tid : String) : Option MTeam :=
  st.teams.find? (fun t => t.teamId == tid)

/-- Embedding of `signup` (authController lines 11-133).  Explicit inputs
stand for the externally produced values: `hashedPassword` for the bcrypt
hash, `uid` / `verificationToken` / `newTeamId` / `newInviteCode` for the
crypto randoms, `now` for the clock, and `emailSendOk` for whether the
awaited `sendVerificationEmail` promise resolves (it rejects on an SMTP
failure, landing the handler in its catch block with a 500).  Flow: both
uniqueness checks, then for an invited signup resolve the invite code
(400 when unknown) and save the user as editor; for an admin signup save
a fresh team then the user as admin.  The verification e-mail is awaited
AFTER the user save and BEFORE the invited-path `team.editors` push. -/
def signup (email password username : String)
    (teamInviteCode : Option String)
    (hashedPassword uid verificationToken newTeamId newInviteCode : String)
    (now : Nat) (emailSendOk : Bool) (st : MongoState) : Resp × MongoState :=
  if (findByEmail st email).isSome then
    (.fail 400 "User already exists with this email", st)
  else if (findByUsername st username).isSome then
    (.fail 400 "Username is already taken", st)
  else
    match teamInviteCode with
    | some code =>
      match findTeamByCode st code with
      | none => (.fail 400 "Invalid team invitation code", st)
      | some team =>
        let newUser : MUser :=
          ⟨uid, email, username, hashedPassword, "editor", some team.teamId,
            false, some verificationToken, some (now + 24)⟩
        let st1 := { st with users := st.users ++ [newUser] }
        if emailSendOk then
          (.ok 201,
            { st1 with
              teams := st1.teams.map (fun t =>
                if t.teamId == team.teamId then
                  { t with editors := t.editors ++ [uid] }
                else t) })
        else (.fail 500 "Server error during registration", st1)
    | none =>
      let team : MTeam := ⟨newTeamId, uid, [], some newInviteCode⟩
      let newUser : MUser :=
        ⟨uid, email, username, hashedPassword, "admin", some newTeamId,
          false, some verificationToken, some (now + 24)⟩
      let st1 := { st with
        users := st.users ++ [newUser]
        teams := st.teams ++ [team] }
      if emailSendOk then (.ok 201, st1)
      else (.fail 500 "Server error during registration", st1)

/-- Mongo comparison `verificationTokenExpiry: { $gt: new Date() }`: a
missing expiry never satisfies `$gt`. -/
def expiryGt (u : MUser) (now : Nat) : Bool :=
  match u.verificationTokenExpiry with
  | some e => now < e
  | none => false

/-- Embedding of `verifyEmail` (authController lines 138-163): find one
user whose stored verification token equals the submitted one and whose
expiry is still in the future; absent that, answer 400.  On success set
`emailVerified` and clear the token and its expiry. -/
def verifyEmail (tok : String) (now : Nat) (st : MongoState) :
    Resp × MongoState :=
  match st.users.find? (fun u =>
      u.verificationToken == some tok && expiryGt u now) with
  | none => (.fail 400 "Invalid or expired verification token", st)
  | some user =>
    (.ok 200,
      { st with
        users := st.users.map (fun u =>
          if u.uid == user.uid then
            { u with
              emailVerified := true
              verificationToken := none
              verificationTokenExpiry := none }
          else u) })

/-- Result of `login`: the three rejection kinds and the issued signed
token payload. -/
inductive LoginRes where
  | noUser : LoginRes
  | unverified : LoginRes
  | badPassword : LoginRes
  | issued : Claims → LoginRes
deriving Repr, DecidableEq

/-- Embedding of `login` (authController lines 311-367), parametrised by
the external `bcrypt.compare` predicate `checkPw plain hash`: find the
user by e-mail (400 when absent), reject 401 when the e-mail is not
verified, reject 400 when the password does not match, else sign a token
whose payload carries the stored uid, e-mail, role and teamId. -/
def login (checkPw : String → String → Bool) (st : MongoState)
    (email pw : String) : LoginRes :=
  match findByEmail st email with
  | none => .noUser
  | some user =>
    if user.emailVerified = false then .unverified
    else if checkPw pw user.password = false then .badPassword
    else .issued ⟨user.uid, user.email, user.role, user.teamId⟩

/-- Embedding of `generateInvite` (authController lines 370-399).  The
handler reads `userId` FROM THE REQUEST BODY and never touches the
`Authorization` header, so the embedding takes no `Auth` argument: find
the body-named user (403 unless found with role admin), find their team
(404 when absent), write a fresh invite code when the team has none, and
answer 200 with the invite link. -/
def generateInvite (bodyUserId : String) (freshCode : String)
    (st : MongoState) : Resp × MongoState :=
  match findByUid st bodyUserId with
  | none => (.fail 403 "Only team admins can generate invite links", st)
  | some user =>
    if user.role = "admin" then
      match user.teamId with
      | none => (.fail 404 "Team not found", st)
      | some tid =>
        match findTeamById st tid with
        | none => (.fail 404 "Team not found", st)
        | some team =>
          if truthy team.inviteCode then (.ok 200, st)
          else
            (.ok 200,
              { st with
                teams := st.teams.map (fun t =>
                  if t.teamId == tid then { t with inviteCode := some freshCode }
                  else t) })
    else (.fail 403 "Only team admins can generate invite links", st)

/-- Users of the Mongo store currently holding verification token `tok`. -/
def tokenHolders (st : MongoState) (tok : String) : List MUser :=
  st.users.filter (fun u => u.verificationToken == some tok)

/-- Mongo store with one team `t1` (invite code `code1`, no editors yet)
and its admin `u1`, used as a concrete scenario. -/
def mongoEx : MongoState :=
  { users := [⟨"u1", "a@x.io", "alice", "H1", "admin", some "t1", true,
      none, none⟩]
    teams := [⟨"t1", "u1", [], some "code1"⟩] }

/-- Mongo store whose team `t1` has no invite code yet. -/
def mongoNoCode : MongoState :=
  { users := [⟨"u1", "a@x.io", "alice", "H1", "admin", some "t1", true,
      none, none⟩]
    teams := [⟨"t1", "u1", [], none⟩] }

/-- Mongo store with one unverified user holding verification token
`vtok` that expires at tick 24. -/
def mongoUnverified : MongoState :=
  { users := [⟨"u1", "a@x.io", "alice", "H1", "admin", some "t1", false,
      some "vtok", some 24⟩]
    teams := [⟨"t1", "u1", [], some "code1"⟩] }

/-- Supabase store with two teams: team `t1` (admin `a1`, editor `e1`,
project `p1` created by `e1`, `e1` its owner member and `m1` a plain
member, one pending invitation `i1`) and team `t2` (admin `a2`). -/
def supaEx : SupaState :=
  { users := [⟨"a1", "admin", some "t1"⟩, ⟨"e1", "editor", some "t1"⟩,
      ⟨"m1", "editor", some "t1"⟩, ⟨"a2", "admin", some "t2"⟩]
    projects := [⟨"p1", "P", "", "active", "t1", "e1", 0, 0⟩]
    members := [⟨"p1", "e1", "owner"⟩, ⟨"p1", "m1", "member"⟩]
    invitations := [⟨"i1", some "t1", "x@y.z", "pending"⟩] }

/-- Supabase store in which user `u1` is stored on team `t2`, used
against a stale token still claiming team `t1`. -/
def supaStale : SupaState :=
  { users := [⟨"u1", "editor", some "t2"⟩]
    projects := []
    members := []
    invitations := [] }

theorem eq_of_mem_of_length_le_one {α : Type _} {l : List α}
    (h : l.length ≤ 1) {a b : α} (ha : a ∈ l) (hb : b ∈ l) : a = b := by
  match l with
  | [] => exact absurd ha (List.not_mem_nil a)
  | [x] =>
    rw [List.mem_singleton] at ha hb
    rw [ha, hb]
  | x :: y :: t => simp at h

/-- C10: login checks the e-mail-verified flag before the password — an
unverified user always gets the verification-required rejection with no
token issued, whatever `bcrypt.compare` would say; a token (carrying the
stored uid, e-mail, role and teamId) is issued exactly when the flag is
set and the password matches. -/
theorem login_verification_before_password
    (checkPw : String → String → Bool) (st : MongoState) (email pw : String)
    (u : MUser) (hu : findByEmail st email = some u) :
    (u.emailVerified = false → login checkPw st email pw = .unverified)
    ∧ (∀ c, login checkPw st email pw = .issued c →
        u.emailVerified = true ∧ checkPw pw u.password = true
        ∧ c = ⟨u.uid, u.email, u.role, u.teamId⟩)
    ∧ (u.emailVerified = true → checkPw pw u.password = true →
        login checkPw st email pw = .issued ⟨u.uid, u.email, u.role, u.teamId⟩) := by
  unfold login
  rw [hu]
  refine ⟨fun hv => by simp [hv], fun c hc => ?_, fun hv hp => by simp [hv, hp]⟩
  by_cases hv : u.emailVerified = false
  · simp [hv] at hc
  · by_cases hp : checkPw pw u.password = false
    · simp [hv, hp] at hc
    · simp only [if_neg hv, if_neg hp] at hc
      injection hc with hc
      simp only [Bool.not_eq_false] at hv hp
      exact ⟨hv, hp, hc.symm⟩

/-- Witness for C10 at the concrete store `mongoUnverified`: the lone
user is unverified, so login is rejected even though the supplied
password matches the stored hash. -/
theorem login_verification_before_password_witness :
    login (fun p h => p == h) mongoUnverified "a@x.io" "H1" = .unverified :=
  (login_verification_before_password (fun p h => p == h) mongoUnverified
    "a@x.io" "H1" _ rfl).1 rfl

/-- C7: verification tokens are single-use — provided the submitted
token is held by at most one user (issuance draws 32 random bytes), a
successful `verifyEmail` clears it, so re-submitting the same token at
any later time answers the invalid/expired 400 rather than success; and
a token whose expiry has passed never validates in the first place. -/
theorem verification_token_single_use (st : MongoState) (tok : String)
    (now : Nat) (huniq : (tokenHolders st tok).length ≤ 1) :
    (∀ st' now2, verifyEmail tok now st = (.ok 200, st') →
      verifyEmail tok now2 st' =
        (.fail 400 "Invalid or expired verification token", st'))
    ∧ (∀ u, u ∈ st.users → u.verificationToken = some tok →
        (∀ e, u.verificationTokenExpiry = some e → e ≤ now) →
        verifyEmail tok now st =
          (.fail 400 "Invalid or expired verification token", st)) := by
  constructor
  · intro st' now2 hrun
    unfold verifyEmail at hrun
    cases hfind : st.users.find? (fun u =>
        u.verificationToken == some tok && expiryGt u now) with
    | none => rw [hfind] at hrun; cases hrun
    | some u0 =>
      rw [hfind] at hrun
      simp only [Prod.mk.injEq, true_and] at hrun
      have hpred := List.find?_some hfind
      have hmem0 := List.mem_of_find?_eq_some hfind
      rw [Bool.and_eq_true] at hpred
      have htok0 : u0.verificationToken = some tok := by
        have := hpred.1
        rwa [beq_iff_eq] at this
      have hnone : st'.users.find? (fun u =>
          u.verificationToken == some tok && expiryGt u now2) = none := by
        rw [List.find?_eq_none]
        intro v hv
        rw [← hrun] at hv
        simp only [List.mem_map] at hv
        obtain ⟨u, humem, rfl⟩ := hv
        by_cases hid : (u.uid == u0.uid) = true
        · simp [hid]
        · have hfid : (u.uid == u0.uid) = false := by simpa using hid
          simp only [hfid, Bool.false_eq_true, if_false, Bool.and_eq_true,
            beq_iff_eq, not_and]
          intro htok _
          have hu_holder : u ∈ tokenHolders st tok := by
            rw [tokenHolders, List.mem_filter]
            exact ⟨humem, by simp [htok]⟩
          have hu0_holder : u0 ∈ tokenHolders st tok := by
            rw [tokenHolders, List.mem_filter]
            exact ⟨hmem0, by simp [htok0]⟩
          have heq : u = u0 :=
            eq_of_mem_of_length_le_one huniq hu_holder hu0_holder
          rw [heq] at hfid
          simp at hfid
      unfold verifyEmail
      rw [hnone]
  · intro u humem htok hexp
    have hnone : st.users.find? (fun v =>
        v.verificationToken == some tok && expiryGt v now) = none := by
      rw [List.find?_eq_none]
      intro v hv
      simp only [Bool.and_eq_true, beq_iff_eq, not_and]
      intro htokv
      have hv_holder : v ∈ tokenHolders st tok := by
        rw [tokenHolders, List.mem_filter]
        exact ⟨hv, by simp [htokv]⟩
      have hu_holder : u ∈ tokenHolders st tok := by
        rw [tokenHolders, List.mem_filter]
        exact ⟨humem, by simp [htok]⟩
      have hvu : v = u := eq_of_mem_of_length_le_one huniq hv_holder hu_holder
      subst hvu
      unfold expiryGt
      cases he : v.verificationTokenExpiry with
      | none => simp
      | some e =>
        have := hexp e he
        simp only [Bool.not_eq_true, decide_eq_false_iff_not, not_lt]
        exact this
    unfold verifyEmail
    rw [hnone]

/-- Witness for C7 at the store `mongoUnverified`: at tick 3 the token
`vtok` (expiry 24) is unique and verifies once; afterwards the same
token is rejected, and at tick 30 the original store also rejects it. -/
theorem verification_token_single_use_witness :
    verifyEmail "vtok" 3
        ((verifyEmail "vtok" 3 mongoUnverified).2) =
      (.fail 400 "Invalid or expired verification token",
        (verifyEmail "vtok" 3 mongoUnverified).2) :=
  (verification_token_single_use mongoUnverified "vtok" 3 (by decide)).1
    (verifyEmail "vtok" 3 mongoUnverified).2 3 (by decide)

/-- C1: the team-scope rule dominates every role check — whenever the
actor recorded in the store has a team different from the resource team
(the project team for project read/update/delete and member add/remove,
the invitation team for invitation cancel), the operation answers a 403
denial and leaves the store untouched, whatever the actor role is. -/
theorem team_scope_dominates (st : SupaState) (c : Claims) (u : SUser)
    (hu : findUser st c.id = some u) :
    (∀ pid p, findProject st pid = some p → u.teamId ≠ some p.teamId →
      getProjectById (.ok c) pid st =
        (.fail 403 "Access denied: You do not have access to this project",
          st)
      ∧ (∀ name description status now,
          ¬(truthy name = false ∧ truthy description = false ∧
            truthy status = false) →
          updateProject (.ok c) pid name description status now st =
            (.fail 403
              "Access denied: You do not have access to this project", st))
      ∧ deleteProject (.ok c) pid st =
          (.fail 403 "Access denied: You do not have access to this project",
            st)
      ∧ (∀ userId role, userId ≠ "" →
          addProjectMember (.ok c) pid userId role st =
            (.fail 403
              "Access denied: You do not have access to this project", st))
      ∧ (∀ userId, removeProjectMember (.ok c) pid userId st =
          (.fail 403 "Access denied: You do not have access to this project",
            st)))
    ∧ (∀ iid inv, findInvitation st iid = some inv → u.teamId ≠ inv.teamId →
        ∃ m, cancelInvitation (.ok c) iid st = (.fail 403 m, st)) := by
  constructor
  · intro pid p hp hne
    refine ⟨?_, ?_, ?_, ?_, ?_⟩
    · simp only [getProjectById, hp, hu, if_neg hne]
    · intro name description status now hbody
      simp only [updateProject, if_neg hbody, hp, hu, if_neg hne]
    · simp only [deleteProject, hp, hu, if_neg hne]
    · intro userId role huid
      simp only [addProjectMember, if_neg huid, hp, hu, if_neg hne]
    · intro userId
      simp only [removeProjectMember, hp, hu, if_neg hne]
  · intro iid inv hi hne
    by_cases hrole : u.role = "admin"
    · refine ⟨"Access denied: This invitation does not belong to your team",
        ?_⟩
      have hne2 : inv.teamId ≠ u.teamId := fun h => hne h.symm
      simp only [cancelInvitation, hu, if_pos hrole, hi, if_neg hne2]
    · exact ⟨"Only team admins can cancel invitations",
        by simp only [cancelInvitation, hu, if_neg hrole]⟩

/-- Witness for C1 at `supaEx`: the admin of team `t2` attempts to read
team `t1` project `p1` and is denied with the store untouched. -/
theorem team_scope_dominates_witness :
    getProjectById (.ok ⟨"a2", "a2@x.io", "admin", some "t2"⟩) "p1" supaEx =
      (.fail 403 "Access denied: You do not have access to this project",
        supaEx) :=
  ((team_scope_dominates supaEx ⟨"a2", "a2@x.io", "admin", some "t2"⟩
      ⟨"a2", "admin", some "t2"⟩ rfl).1 "p1"
      ⟨"p1", "P", "", "active", "t1", "e1", 0, 0⟩ rfl (by decide)).1

/-- C4: for a team-scoped actor (stored team equals the project team),
project update and delete answer 200 exactly when the stored role is
admin or the actor id equals the project creator; any other team-scoped
actor gets the 403 insufficient-permission denial with the store
untouched. -/
theorem update_delete_role_rule (st : SupaState) (c : Claims) (u : SUser)
    (pid : String) (p : SProject) (name description status : Option String)
    (now : Nat)
    (hu : findUser st c.id = some u) (hp : findProject st pid = some p)
    (hteam : u.teamId = some p.teamId)
    (hbody : ¬(truthy name = false ∧ truthy description = false ∧
      truthy status = false)) :
    ((updateProject (.ok c) pid name description status now st).1 = .ok 200 ↔
      (u.role = "admin" ∨ p.createdBy = c.id))
    ∧ ((deleteProject (.ok c) pid st).1 = .ok 200 ↔
      (u.role = "admin" ∨ p.createdBy = c.id))
    ∧ (¬(u.role = "admin" ∨ p.createdBy = c.id) →
        updateProject (.ok c) pid name description status now st =
          (.fail 403
            "Access denied: You do not have permission to update this project",
            st)
        ∧ deleteProject (.ok c) pid st =
          (.fail 403
            "Access denied: You do not have permission to delete this project",
            st)) := by
  by_cases hr : u.role = "admin" ∨ p.createdBy = c.id
  · refine ⟨?_, ?_, fun hc => absurd hr hc⟩
    · simp only [updateProject, if_neg hbody, hp, hu, if_pos hteam,
        if_pos hr]
      simp [hr]
    · simp only [deleteProject, hp, hu, if_pos hteam, if_pos hr]
      simp [hr]
  · refine ⟨?_, ?_, fun _ => ⟨?_, ?_⟩⟩
    · simp only [updateProject, if_neg hbody, hp, hu, if_pos hteam,
        if_neg hr]
      simp [hr]
    · simp only [deleteProject, hp, hu, if_pos hteam, if_neg hr]
      simp [hr]
    · simp only [updateProject, if_neg hbody, hp, hu, if_pos hteam,
        if_neg hr]
    · simp only [deleteProject, hp, hu, if_pos hteam, if_neg hr]

/-- Witness for C4 at `supaEx`: the team-scoped editor `m1`, neither
admin nor the creator of `p1`, is denied the update and the store is
untouched. -/
theorem update_delete_role_rule_witness :
    updateProject (.ok ⟨"m1", "m1@x.io", "editor", some "t1"⟩) "p1"
        (some "N") none none 9 supaEx =
      (.fail 403
        "Access denied: You do not have permission to update this project",
        supaEx) :=
  (((update_delete_role_rule supaEx ⟨"m1", "m1@x.io", "editor", some "t1"⟩
      ⟨"m1", "editor", some "t1"⟩ "p1"
      ⟨"p1", "P", "", "active", "t1", "e1", 0, 0⟩ (some "N") none none 9
      rfl rfl rfl (by decide)).2.2 (by decide)).1)

/-- C6: no actor, whatever the bearer token and whatever the stored
role, can remove the creator of a project from `project_members` — the
request always fails and the store is untouched. -/
theorem cannot_remove_creator (a : Auth) (st : SupaState) (pid : String)
    (p : SProject) (hp : findProject st pid = some p) :
    (removeProjectMember a pid p.createdBy st).1.isFail = true
    ∧ (removeProjectMember a pid p.createdBy st).2 = st := by
  cases a with
  | noHeader => simp [removeProjectMember, Resp.isFail]
  | badToken => simp [removeProjectMember, Resp.isFail]
  | ok c =>
    simp only [removeProjectMember, hp]
    cases hu : findUser st c.id with
    | none => simp [Resp.isFail]
    | some u =>
      by_cases hteam : u.teamId = some p.teamId
      · by_cases hr : u.role = "admin" ∨ p.createdBy = c.id
        · simp [if_pos hteam, if_pos hr, Resp.isFail]
        · simp [if_pos hteam, if_neg hr, Resp.isFail]
      · simp [if_neg hteam, Resp.isFail]

/-- Witness for C6 at `supaEx`: even the team admin `a1` cannot remove
the creator `e1` of project `p1`; the request fails and the store is
unchanged. -/
theorem cannot_remove_creator_witness :
    (removeProjectMember (.ok ⟨"a1", "a1@x.io", "admin", some "t1"⟩) "p1"
        "e1" supaEx).1.isFail = true
    ∧ (removeProjectMember (.ok ⟨"a1", "a1@x.io", "admin", some "t1"⟩) "p1"
        "e1" supaEx).2 = supaEx :=
  cannot_remove_creator (.ok ⟨"a1", "a1@x.io", "admin", some "t1"⟩) supaEx
    "p1" ⟨"p1", "P", "", "active", "t1", "e1", 0, 0⟩ rfl

theorem find?_map_preserving {α : Type _} (pr : α → Bool) (f : α → α)
    (hf : ∀ q, pr (f q) = pr q) (l : List α) (p : α)
    (h : l.find? pr = some p) :
    (l.map (fun q => if pr q then f q else q)).find? pr = some (f p) := by
  induction l with
  | nil => simp at h
  | cons x xs ih =>
    by_cases hx : pr x = true
    · rw [List.find?_cons_of_pos _ hx] at h
      injection h with h
      subst h
      simp only [List.map_cons, if_pos hx]
      rw [List.find?_cons_of_pos _ (by rw [hf]; exact hx)]
    · rw [List.find?_cons_of_neg _ hx] at h
      simp only [List.map_cons, if_neg hx]
      rw [List.find?_cons_of_neg _ hx]
      exact ih h

/-- C9: a permitted project update only rewrites `name`, `description`,
`status` and `updated_at` — the stored row keeps its id, team, creator
and creation time, every other project row with a different id survives
unchanged, and the other tables are untouched. -/
theorem update_project_frame (c : Claims) (pid : String)
    (name description status : Option String) (now : Nat)
    (st st' : SupaState) (p : SProject)
    (hp : findProject st pid = some p)
    (hrun : updateProject (.ok c) pid name description status now st =
      (.ok 200, st')) :
    findProject st' pid = some (applyUpdate name description status now p)
    ∧ (applyUpdate name description status now p).id = p.id
    ∧ (applyUpdate name description status now p).teamId = p.teamId
    ∧ (applyUpdate name description status now p).createdBy = p.createdBy
    ∧ (applyUpdate name description status now p).createdAt = p.createdAt
    ∧ (applyUpdate name description status now p).updatedAt = now
    ∧ st'.users = st.users ∧ st'.members = st.members
    ∧ st'.invitations = st.invitations
    ∧ (∀ q ∈ st.projects, (q.id == pid) = false → q ∈ st'.projects) := by
  unfold updateProject at hrun
  by_cases hbody : (truthy name = false ∧ truthy description = false ∧
      truthy status = false)
  · rw [if_pos hbody] at hrun; cases hrun
  · rw [if_neg hbody] at hrun
    simp only [hp] at hrun
    cases hu : findUser st c.id with
    | none => simp only [hu] at hrun; cases hrun
    | some u =>
      simp only [hu] at hrun
      by_cases hteam : u.teamId = some p.teamId
      · rw [if_pos hteam] at hrun
        by_cases hr : u.role = "admin" ∨ p.createdBy = c.id
        · rw [if_pos hr] at hrun
          simp only [Prod.mk.injEq, true_and] at hrun
          subst hrun
          refine ⟨?_, rfl, rfl, rfl, rfl, rfl, rfl, rfl, rfl, ?_⟩
          · unfold findProject at hp ⊢
            exact find?_map_preserving (fun q => q.id == pid)
              (applyUpdate name description status now)
              (fun q => rfl) st.projects p hp
          · intro q hq hne
            simp only [List.mem_map]
            exact ⟨q, hq, by simp [hne]⟩
        · rw [if_neg hr] at hrun; cases hrun
      · rw [if_neg hteam] at hrun; cases hrun

/-- Witness for C9 at `supaEx`: the admin `a1` renames project `p1`; the
updated row keeps the team, creator and creation time of `p1`. -/
theorem update_project_frame_witness :
    findProject (updateProject (.ok ⟨"a1", "a1@x.io", "admin", some "t1"⟩)
        "p1" (some "N") none none 9 supaEx).2 "p1" =
      some (applyUpdate (some "N") none none 9
        ⟨"p1", "P", "", "active", "t1", "e1", 0, 0⟩) :=
  (update_project_frame ⟨"a1", "a1@x.io", "admin", some "t1"⟩ "p1"
    (some "N") none none 9 supaEx
    (updateProject (.ok ⟨"a1", "a1@x.io", "admin", some "t1"⟩) "p1"
      (some "N") none none 9 supaEx).2
    ⟨"p1", "P", "", "active", "t1", "e1", 0, 0⟩ rfl (by rfl)).1

/-- C5 counterexample: in store `supaStale` user `u1` is recorded on
team `t2`, yet `createProject` invoked with a token still claiming team
`t1` succeeds and records the new project under `t1` — the creation
decision used the token claims, not the stored team, refuting the claim
that every operation (project creation included) decides from the store. -/
theorem create_project_uses_token_team :
    findUser supaStale "u1" = some ⟨"u1", "editor", some "t2"⟩
    ∧ (createProject (.ok ⟨"u1", "u1@x.io", "editor", some "t1"⟩)
        (some "P") none "p9" 5 true supaStale).1 = .ok 201
    ∧ ((createProject (.ok ⟨"u1", "u1@x.io", "editor", some "t1"⟩)
        (some "P") none "p9" 5 true supaStale).2.projects.map
          SProject.teamId) = ["t1"] := by
  decide

/-- C5 (amended): project read, update and delete decide from the role
and team currently stored for the token subject — their outcome is
invariant under the role/team claims carried in the token (only the `id`
claim matters); project creation, by contrast, performs no store lookup
of the actor and records the project under the teamId claim carried in
the token. -/
theorem authorization_reads_store_except_creation (c c' : Claims)
    (hid : c.id = c'.id) :
    (∀ pid st, getProjectById (.ok c) pid st = getProjectById (.ok c') pid st)
    ∧ (∀ pid name description status now st,
        updateProject (.ok c) pid name description status now st =
          updateProject (.ok c') pid name description status now st)
    ∧ (∀ pid st, deleteProject (.ok c) pid st = deleteProject (.ok c') pid st)
    ∧ (∀ name description freshId now mo st t, c.teamId = some t →
        (createProject (.ok c) name description freshId now mo st).1 =
          .ok 201 →
        ∃ p ∈ (createProject (.ok c) name description freshId now mo
            st).2.projects,
          p.id = freshId ∧ p.teamId = t ∧ p.createdBy = c.id) := by
  refine ⟨?_, ?_, ?_, ?_⟩
  · intro pid st
    simp only [getProjectById]
    rw [hid]
  · intro pid name description status now st
    simp only [updateProject]
    rw [hid]
  · intro pid st
    simp only [deleteProject]
    rw [hid]
  · intro name description freshId now mo st t ht h201
    unfold createProject at h201 ⊢
    by_cases hn : truthyTrim name = false
    · rw [if_pos hn] at h201; cases h201
    · rw [if_neg hn] at h201 ⊢
      simp only [ht] at h201 ⊢
      refine ⟨⟨freshId, name.getD "", description.getD "", "active", t,
        c.id, now, now⟩, ?_, rfl, rfl, rfl⟩
      cases mo <;> simp

/-- Witness for C5 (amended) at `supaEx`: replacing the role and team
claims of the token (admin of `t1` versus editor of no team) leaves the
outcome of a project read untouched. -/
theorem authorization_reads_store_except_creation_witness :
    getProjectById (.ok ⟨"a1", "a1@x.io", "admin", some "t1"⟩) "p1" supaEx =
      getProjectById (.ok ⟨"a1", "other", "editor", none⟩) "p1" supaEx :=
  (authorization_reads_store_except_creation
    ⟨"a1", "a1@x.io", "admin", some "t1"⟩
    ⟨"a1", "other", "editor", none⟩ rfl).1 "p1" supaEx

/-- C2 (code bug): `generateInvite` never reads the `Authorization`
header — its embedding takes no `Auth` argument because the source code
verifies no token; invoked at store `mongoNoCode` with only the
body-supplied id of the admin `u1`, it answers 200 and writes a fresh
invite code into team `t1`, an authorization decision and a store
mutation made with no bearer token verified, against the claim that
every exposed operation verifies a token first. -/
theorem generate_invite_skips_token_verification :
    generateInvite "u1" "freshC" mongoNoCode =
      (.ok 200,
        { users := mongoNoCode.users
          teams := [⟨"t1", "u1", [], some "freshC"⟩] }) := by
  decide

/-- C3 (code bug): a successful project creation is not guaranteed to
leave an owner `project_members` row, and the two inserts are not
atomic.  At store `supaEx`: the src/controllers/projectController.js
variant answers 201 with zero membership rows for the new project `p7`
(it performs no member insert at all); the part_003 variant, when the
store reports a failure of the member insert (an error the JS code
never checks), also answers 201 with the project row present and the
owner row absent. -/
theorem create_project_owner_row_not_guaranteed :
    ((createProjectCtrl (.ok ⟨"a1", "a1@x.io", "admin", some "t1"⟩)
        (some "Q") none "p7" 3 supaEx).1 = .ok 201
      ∧ ((createProjectCtrl (.ok ⟨"a1", "a1@x.io", "admin", some "t1"⟩)
          (some "Q") none "p7" 3 supaEx).2.members.filter
            (fun m => m.projectId == "p7")) = [])
    ∧ ((createProject (.ok ⟨"a1", "a1@x.io", "admin", some "t1"⟩)
        (some "Q") none "p7" 3 false supaEx).1 = .ok 201
      ∧ ((createProject (.ok ⟨"a1", "a1@x.io", "admin", some "t1"⟩)
          (some "Q") none "p7" 3 false supaEx).2.members.filter
            (fun m => m.projectId == "p7")) = []
      ∧ findProject (createProject (.ok ⟨"a1", "a1@x.io", "admin",
          some "t1"⟩) (some "Q") none "p7" 3 false supaEx).2 "p7" ≠ none) := by
  decide

/-- C8 (code bug): `signup` awaits `sendVerificationEmail` inside its
try block, and the e-mail promise rejects on an SMTP failure — so at
store `mongoEx` an invited signup whose verification e-mail fails
answers 500 (the signup fails) while the new user row is already
persisted and the `team.editors` roster push never runs, against the
claim that an e-mail failure never fails the signup and leaves no
half-written state. -/
theorem email_failure_fails_signup :
    (signup "b@x.io" "pw" "bob" (some "code1") "H2" "u2" "vt2" "tX" "cX" 0
        false mongoEx).1 = .fail 500 "Server error during registration"
    ∧ (findByEmail (signup "b@x.io" "pw" "bob" (some "code1") "H2" "u2"
        "vt2" "tX" "cX" 0 false mongoEx).2 "b@x.io").isSome = true
    ∧ (findTeamById (signup "b@x.io" "pw" "bob" (some "code1") "H2" "u2"
        "vt2" "tX" "cX" 0 false mongoEx).2 "t1").map MTeam.editors =
      some [] := by
  decide

end TeamHub
